import Mathlib

/-!
Shallow embedding of the quality-data aggregation core of the
`sonarqube-mcp-npm` repository.

Covered source files:
* `src/utils/formatting.ts` — duration formatting/parsing, trend
  computation, issue priority and sorting, project-key validation;
* `src/services/sonarqube-client.ts` — the `getSecurityVulnerabilities`
  and `getProjectRepository` operations, and the SCM-URL provider
  derivation embedded in the latter.

Modelling conventions:
* JavaScript strings handled character-wise are modelled as `List Char`
  (the duration strings and SCM URLs); strings only compared for
  equality stay `String`.
* Machine numbers in the covered code are non-negative integer minute
  counts and weights, modelled as `Nat`; metric values flowing through
  the trend computation are modelled as `ℚ` (exact arithmetic; the
  covered claims use integer-valued samples, on which JS floats are
  exact).
* `async` methods returning or throwing are modelled as functions from
  the outcome of each upstream fetch (`Except ε payload`) to
  `Except ε result`; a `try { ... } catch (e) { throw e }` wrapper is
  the identity on errors.
* Fields that can be `undefined` in JS are modelled as `Option`;
  the JS truthiness test `x || d` on an optional string (where the
  empty string is falsy) is modelled by `jsOrElse`.
-/

/-! ## Small JS-semantics helpers -/

/-- JS `a || d` for an optional string `a`: `undefined` and `""` are falsy. -/
def jsOrElse (a : Option String) (d : String) : String :=
  match a with
  | some s => if s = "" then d else s
  | none => d

/-- JS regex `\d`: the ASCII digits `[0-9]`. -/
def jsDigit (c : Char) : Bool :=
  decide ('0' ≤ c) && decide (c ≤ '9')

/-- JS regex `\s`, restricted to the ASCII whitespace characters (the only
whitespace that can occur in the duration strings of this program). -/
def jsWhitespace (c : Char) : Bool :=
  c == ' ' || c == '\t' || c == '\n' || c == '\r' || c == '\x0b' || c == '\x0c'

/-- Numeric value of an ASCII digit character. -/
def digitVal (c : Char) : Nat := c.toNat - 48

/-- Value of a decimal digit string, the result of JS `parseInt` on a
string of digits. -/
def digitsVal (l : List Char) : Nat :=
  l.foldl (fun a c => a * 10 + digitVal c) 0

/-- The ASCII character of a decimal digit. -/
def digitChar (n : Nat) : Char := Char.ofNat (48 + n)

/-- Decimal rendering of a natural number (the JS template interpolation
of a non-negative integer), with explicit fuel so that it is structural. -/
def natToDigitsAux : Nat → Nat → List Char
  | 0, _ => []
  | fuel + 1, n =>
    if n < 10 then [digitChar n]
    else natToDigitsAux fuel (n / 10) ++ [digitChar (n % 10)]

/-- Decimal rendering of a natural number. -/
def natToDigits (n : Nat) : List Char := natToDigitsAux (n + 1) n

/-- Case-sensitive substring test: JS `hay.includes(needle)`. -/
def includesSub (hay needle : List Char) : Bool :=
  match hay with
  | [] => needle.isEmpty
  | _ :: t => needle.isPrefixOf hay || includesSub t needle

/-! ## `src/utils/formatting.ts` — duration formatting and parsing -/

/-- `formatDuration(minutes)` from `src/utils/formatting.ts`: renders a
minute count as `"Nmin"`, `"Hh"`, `"Hh Mmin"`, `"Dd"` or `"Dd Hh"`. -/
def formatDuration (minutes : Nat) : List Char :=
  if minutes < 60 then natToDigits minutes ++ ['m', 'i', 'n']
  else
    let hours := minutes / 60
    let remainingMinutes := minutes % 60
    if hours < 24 then
      if remainingMinutes > 0 then
        natToDigits hours ++ ['h', ' '] ++ natToDigits remainingMinutes ++ ['m', 'i', 'n']
      else natToDigits hours ++ ['h']
    else
      let days := hours / 24
      let remainingHours := hours % 24
      if remainingHours > 0 then
        natToDigits days ++ ['d', ' '] ++ natToDigits remainingHours ++ ['h']
      else natToDigits days ++ ['d']

/-- One optional group `(?:(\d+)lit)?` of the technical-debt regex, matched
at the current position: a maximal nonempty digit run directly followed by
the literal `lit` (greedy; shorter digit runs can never help because the
released character would be a digit, not a letter).  Returns the parsed
number and the remainder after the literal, or `none` if the group matches
empty. -/
def debtGroup (lit : List Char) (s : List Char) : Option (Nat × List Char) :=
  let ds := s.takeWhile jsDigit
  let rest := s.dropWhile jsDigit
  if ds.isEmpty then none
  else if lit.isPrefixOf rest then some (digitsVal ds, rest.drop lit.length)
  else none

/-- `parseTechnicalDebt(debt)` from `src/utils/formatting.ts`: matches the
regex `(?:(\d+)d)?\s*(?:(\d+)h)?\s*(?:(\d+)min)?` (which always matches at
position 0, every part being optional) and returns
`days*24*60 + hours*60 + minutes`, absent groups counting as zero. -/
def parseTechnicalDebt (debt : List Char) : Nat :=
  let (days, s1) :=
    match debtGroup ['d'] debt with
    | some (v, r) => (v, r)
    | none => (0, debt)
  let s1w := s1.dropWhile jsWhitespace
  let (hours, s2) :=
    match debtGroup ['h'] s1w with
    | some (v, r) => (v, r)
    | none => (0, s1w)
  let s2w := s2.dropWhile jsWhitespace
  let minutes :=
    match debtGroup ['m', 'i', 'n'] s2w with
    | some (v, _) => v
    | none => 0
  days * 24 * 60 + hours * 60 + minutes

/-! ## `src/utils/formatting.ts` — trend computation -/

/-- Trend direction labels. -/
inductive TrendDirection where
  | UP
  | DOWN
  | STABLE
deriving DecidableEq, Repr

/-- `calculatePercentageChange(oldValue, newValue)`. -/
def calculatePercentageChange (oldValue newValue : ℚ) : ℚ :=
  if oldValue = 0 then (if newValue = 0 then 0 else 100)
  else (newValue - oldValue) / oldValue * 100

/-- `getTrendDirection(change)`. -/
def getTrendDirection (change : ℚ) : TrendDirection :=
  if |change| < 1 then .STABLE
  else if change > 0 then .UP else .DOWN

/-- One metric history entry's optional value (`h.value`); the date field
plays no role in the computation and is omitted. -/
abbrev HistoryEntry := Option ℚ

/-- A `MetricTrend`: metric identifier plus its time series. -/
structure MetricTrend where
  metric : String
  history : List HistoryEntry

/-- One entry of the computed `TrendAnalysis`.  The `change` display
string of the source (`formatPercentage(changePercent)`, resp. the literal
`'0%'`) is presentation-only and is not modelled. -/
structure TrendEntry where
  direction : TrendDirection
  changePercent : ℚ
deriving DecidableEq, Repr

/-- Body of the `forEach` in `calculateTrends`: filter out entries with
undefined value; with fewer than two remaining values yield `STABLE`/`0`,
otherwise compare the last two values. -/
def trendOfHistory (history : List HistoryEntry) : TrendEntry :=
  let h := history.filterMap id
  if h.length < 2 then ⟨.STABLE, 0⟩
  else
    let latest := h.getD (h.length - 1) 0
    let previous := h.getD (h.length - 2) 0
    let changePercent := calculatePercentageChange previous latest
    ⟨getTrendDirection changePercent, changePercent⟩

/-- `calculateTrends(metricTrends)`: the result object keyed by metric name
is modelled as the association list produced in iteration order. -/
def calculateTrends (metricTrends : List MetricTrend) : List (String × TrendEntry) :=
  metricTrends.map (fun t => (t.metric, trendOfHistory t.history))

/-! ## `src/utils/formatting.ts` — issue priority and sorting -/

/-- JS `String.prototype.toUpperCase`, on the ASCII strings this program
compares. -/
def jsToUpper (s : String) : String := String.mk (s.data.map Char.toUpper)

/-- JS `String.prototype.toLowerCase`, on the ASCII strings this program
compares. -/
def jsToLower (s : String) : String := String.mk (s.data.map Char.toLower)

/-- `getSeverityLevel(severity)`. -/
def getSeverityLevel (severity : String) : Nat :=
  let u := jsToUpper severity
  if u = "BLOCKER" then 5
  else if u = "CRITICAL" then 4
  else if u = "MAJOR" then 3
  else if u = "MINOR" then 2
  else if u = "INFO" then 1
  else 0

/-- `getIssuePriority(type, severity)`: inline type weight times severity
weight. -/
def getIssuePriority (type severity : String) : Nat :=
  (if type = "BUG" then 3 else if type = "VULNERABILITY" then 4 else 1) *
    getSeverityLevel severity

/-- The fields of an issue that `sortIssuesByPriority` inspects, plus a key
so that distinct issues of equal priority can be told apart. -/
structure SortableIssue where
  key : String
  type : String
  severity : String
deriving DecidableEq

/-- Sort key of an issue. -/
def issuePriority (i : SortableIssue) : Nat := getIssuePriority i.type i.severity

/-- `sortIssuesByPriority(issues)`: a stable sort of a copy of the input by
descending priority (JS `[...issues].sort((a, b) => priorityB - priorityA)`;
`Array.prototype.sort` is stable). -/
def sortIssuesByPriority (issues : List SortableIssue) : List SortableIssue :=
  issues.mergeSort (fun a b => decide (issuePriority b ≤ issuePriority a))

/-! ## `src/utils/formatting.ts` — project-key validation -/

/-- Membership in the regex character class `[a-zA-Z0-9_:.-]`. -/
def projectKeyChar (c : Char) : Bool :=
  (decide ('a' ≤ c) && decide (c ≤ 'z')) ||
  (decide ('A' ≤ c) && decide (c ≤ 'Z')) ||
  (decide ('0' ≤ c) && decide (c ≤ '9')) ||
  c == '_' || c == ':' || c == '.' || c == '-'

/-- JS `/^[a-zA-Z0-9_:.-]+$/.test(key)`: the whole string is a nonempty
run of class characters. -/
def projectKeyRegexTest (key : String) : Bool :=
  !key.data.isEmpty && key.data.all projectKeyChar

/-- `isValidProjectKey(key)`. -/
def isValidProjectKey (key : String) : Bool :=
  projectKeyRegexTest key && decide (key.length > 0) && decide (key.length ≤ 400)

/-! ## `src/services/sonarqube-client.ts` — the SCM extraction regex

The provider extraction uses JS regexes of the shape
`frag[^\/]*[\/:]([^\/]+)\/([^\/\.]+)` (with `frag` one of `github`,
`gitlab`, `bitbucket`), matched case-sensitively against the original
(non-lowered) URL.  JS semantics: the leftmost start position at which the
whole pattern matches wins; `[^\/]*` is greedy with backtracking over the
`[\/:]` separator position (backtracking inside `[^\/]+` or `[^\/\.]+` can
never help, because the released character could not match the literal `/`
that follows). -/

/-- Match `([^\/]+)\/([^\/\.]+)` at the current position: a maximal
nonempty run without `/`, a literal `/`, then a maximal nonempty run
without `/` or `.` (the first captured run is the organization, the second
the repository name). -/
def scmMatchTail (t : List Char) : Option (List Char × List Char) :=
  let b := t.takeWhile (fun c => c != '/')
  if b.isEmpty then none
  else
    match t.drop b.length with
    | '/' :: u =>
      let c := u.takeWhile (fun ch => ch != '/' && ch != '.')
      if c.isEmpty then none else some (b, c)
    | _ => none

/-- Try the separator `[\/:]` at position `i` of `s` (so `[^\/]*` consumes
`s.take i`, which must contain no `/`), then the tail pattern. -/
def scmTrySepAt (s : List Char) (i : Nat) : Option (List Char × List Char) :=
  match s.get? i with
  | some sep =>
    if (sep == '/' || sep == ':') && (s.take i).all (fun c => c != '/') then
      scmMatchTail (s.drop (i + 1))
    else none
  | none => none

/-- Greedy `[^\/]*[\/:]` with backtracking: try separator positions from
`i` down to `0`. -/
def scmTrySepFrom (s : List Char) : Nat → Option (List Char × List Char)
  | 0 => scmTrySepAt s 0
  | i + 1 =>
    match scmTrySepAt s (i + 1) with
    | some r => some r
    | none => scmTrySepFrom s i

/-- Match `[^\/]*[\/:]([^\/]+)\/([^\/\.]+)` at the current position:
separator positions are tried greedily from the end of the maximal
`/`-free prefix downwards. -/
def scmMatchAfterFrag (s : List Char) : Option (List Char × List Char) :=
  scmTrySepFrom s (s.takeWhile (fun c => c != '/')).length

/-- JS `url.match(/frag[^\/]*[\/:]([^\/]+)\/([^\/\.]+)/)`: scan start
positions left to right; at each start the literal `frag` must match
there, followed by the rest of the pattern. -/
def scmFindMatch (frag : List Char) : List Char → Option (List Char × List Char)
  | [] => none
  | c :: t =>
    if frag.isPrefixOf (c :: t) then
      match scmMatchAfterFrag ((c :: t).drop frag.length) with
      | some r => some r
      | none => scmFindMatch frag t
    else scmFindMatch frag t

/-! ## `src/services/sonarqube-client.ts` — domain records -/

/-- The `result.links` sub-block of a `ProjectRepository`. -/
structure ProjectLinks where
  homepage : Option String
  ci : Option String
  issue : Option String
  scm : Option String
deriving DecidableEq, Repr

/-- The `result.repository` sub-block of a `ProjectRepository`. -/
structure RepositoryBlock where
  url : Option String
  provider : Option String
  organization : Option String
  name : Option String
  mainBranch : Option String
  branches : Option (List String)
deriving DecidableEq, Repr

/-- An empty `result.repository` object (`result.repository = {}`). -/
def emptyRepositoryBlock : RepositoryBlock :=
  ⟨none, none, none, none, none, none⟩

/-- The `result.alm` sub-block of a `ProjectRepository`. -/
structure AlmBlock where
  provider : String
  url : Option String
  identifier : Option String
deriving DecidableEq, Repr

/-- The `ProjectRepository` record returned by `getProjectRepository`. -/
structure ProjectRepository where
  projectKey : String
  projectName : String
  links : Option ProjectLinks
  repository : Option RepositoryBlock
  alm : Option AlmBlock
deriving DecidableEq, Repr

/-- Parameters of `getProjectRepository` (an absent `includeBranches` is
the falsy `undefined`, modelled as `false`). -/
structure GetProjectRepositoryParams where
  projectKey : String
  includeBranches : Bool

/-- One element of `projectResponse.data.components`. -/
structure ProjectComponent where
  name : Option String

/-- `projectResponse.data` of `GET /projects/search`. -/
structure ProjectSearchData where
  components : Option (List ProjectComponent)

/-- One element of `linksResponse.data.links`. -/
structure RawLink where
  type : Option String
  url : Option String

/-- `linksResponse.data` of `GET /project_links/search`. -/
structure LinksData where
  links : Option (List RawLink)

/-- One element of `branchesResponse.data.branches`. -/
structure RawBranch where
  name : String
  isMain : Bool

/-- `branchesResponse.data` of `GET /project_branches/list`. -/
structure BranchesData where
  branches : Option (List RawBranch)

/-- `almResponse.data.almIntegration`. -/
structure AlmIntegration where
  alm : Option String
  url : Option String
  repository : Option String

/-- `almResponse.data` of `GET /alm_integrations/search_projects`. -/
structure AlmData where
  almIntegration : Option AlmIntegration

/-! ## `src/services/sonarqube-client.ts` — `getProjectRepository` -/

/-- The `forEach` over `linksResponse.data.links`: dispatch each link on
its lower-cased `type` (skipping links whose `type` or `url` is absent or
falsy-empty), later links of the same type overwriting earlier ones. -/
def processLinks (raw : List RawLink) : ProjectLinks :=
  raw.foldl
    (fun acc link =>
      match link.type, link.url with
      | some t, some u =>
        if t = "" ∨ u = "" then acc
        else
          let ty := jsToLower t
          if ty = "homepage" then { acc with homepage := some u }
          else if ty = "ci" then { acc with ci := some u }
          else if ty = "issue" ∨ ty = "issues" then { acc with issue := some u }
          else if ty = "scm" ∨ ty = "sources" then { acc with scm := some u }
          else acc
      | _, _ => acc)
    ⟨none, none, none, none⟩

/-- The SCM-link block of `getProjectRepository` (lines 504-540): set
`repository.url`, classify the provider on the lower-cased URL in the
priority order github, gitlab, bitbucket, azure, and for the first three
extract organization/name with the case-sensitive regex on the original
URL (the guard `match && match[1] && match[2]` is automatically satisfied
by a successful match, both captures being nonempty by construction). -/
def parseScmRepository (scm : String) (repo0 : RepositoryBlock) : RepositoryBlock :=
  let base := { repo0 with url := some scm }
  let scmUrl := scm.data.map Char.toLower
  if includesSub scmUrl "github".data then
    let r := { base with provider := some "github" }
    match scmFindMatch "github".data scm.data with
    | some (org, name) =>
      { r with organization := some (String.mk org), name := some (String.mk name) }
    | none => r
  else if includesSub scmUrl "gitlab".data then
    let r := { base with provider := some "gitlab" }
    match scmFindMatch "gitlab".data scm.data with
    | some (org, name) =>
      { r with organization := some (String.mk org), name := some (String.mk name) }
    | none => r
  else if includesSub scmUrl "bitbucket".data then
    let r := { base with provider := some "bitbucket" }
    match scmFindMatch "bitbucket".data scm.data with
    | some (org, name) =>
      { r with organization := some (String.mk org), name := some (String.mk name) }
    | none => r
  else if includesSub scmUrl "dev.azure.com".data || includesSub scmUrl "visualstudio.com".data then
    { base with provider := some "azure_devops" }
  else
    { base with provider := some "other" }

/-- `getProjectRepository(params)`, as a function of the outcome of its
four upstream fetches.  The base project search is awaited outside any
inner `try`, so its failure is rethrown by the outer `catch`; the links,
branches and ALM fetches are each wrapped in their own `try`/`catch` that
only logs, so their failures leave the corresponding sub-block unset. -/
def getProjectRepository {ε : Type} (params : GetProjectRepositoryParams)
    (projectFetch : Except ε ProjectSearchData)
    (linksFetch : Except ε LinksData)
    (branchesFetch : Except ε BranchesData)
    (almFetch : Except ε AlmData) : Except ε ProjectRepository := do
  let projectResponse ← projectFetch
  let projectName :=
    match projectResponse.components with
    | some (project :: _) => jsOrElse project.name params.projectKey
    | _ => params.projectKey
  let links : Option ProjectLinks :=
    match linksFetch with
    | .ok ld =>
      match ld.links with
      | some ls => if ls.length > 0 then some (processLinks ls) else none
      | none => none
    | .error _ => none
  let repoFromBranches : Option RepositoryBlock :=
    if params.includeBranches then
      match branchesFetch with
      | .ok bd =>
        match bd.branches with
        | some bs =>
          if bs.length > 0 then
            some { emptyRepositoryBlock with
                     branches := some (bs.map (fun b => b.name)),
                     mainBranch := (bs.find? (fun b => b.isMain)).map (fun b => b.name) }
          else none
        | none => none
      | .error _ => none
    else none
  let repository : Option RepositoryBlock :=
    match links with
    | some l =>
      match l.scm with
      | some scmUrl => some (parseScmRepository scmUrl (repoFromBranches.getD emptyRepositoryBlock))
      | none => repoFromBranches
    | none => repoFromBranches
  let alm : Option AlmBlock :=
    match almFetch with
    | .ok ad =>
      match ad.almIntegration with
      | some integ =>
        some { provider := jsOrElse integ.alm "unknown",
               url := integ.url,
               identifier := integ.repository }
      | none => none
    | .error _ => none
  .ok { projectKey := params.projectKey, projectName := projectName,
        links := links, repository := repository, alm := alm }

/-! ## `src/services/sonarqube-client.ts` — `getSecurityVulnerabilities` -/

/-- `vulnerabilitiesResponse.data` of the issue search (`issues` may be
absent, defaulted by `|| []`); issue payloads are opaque here. -/
structure IssuesSearchData (α : Type) where
  issues : Option (List α)

/-- `hotspotsResponse.data` of the hotspot search (`hotspots` may be
absent, defaulted by `|| []`). -/
structure HotspotsSearchData (β : Type) where
  hotspots : Option (List β)

/-- The record returned by `getSecurityVulnerabilities`. -/
structure SecurityAnalysisRecord (α β : Type) where
  vulnerabilities : List α
  hotspots : List β
deriving DecidableEq

/-- `getSecurityVulnerabilities(params)`, as a function of the outcome of
its two upstream fetches.  Both awaits sit inside one `try` whose `catch`
rethrows, so a failure of either search propagates; when both succeed the
two payloads are merged, absent arrays defaulting to `[]`. -/
def getSecurityVulnerabilities {ε α β : Type}
    (vulnFetch : Except ε (IssuesSearchData α))
    (hotspotsFetch : Except ε (HotspotsSearchData β)) :
    Except ε (SecurityAnalysisRecord α β) := do
  let vulnerabilitiesResponse ← vulnFetch
  let hotspotsResponse ← hotspotsFetch
  .ok { vulnerabilities := vulnerabilitiesResponse.issues.getD [],
        hotspots := hotspotsResponse.hotspots.getD [] }

/-! ## Spec-side definitions (used to compare the source functions
against the spec wording of the claims) -/

/-- Spec-side percent change: `(latest - previous) / previous * 100`, with
previous `= 0` yielding `0` when latest `= 0` and `100` otherwise. -/
def specChangePercent (previous latest : ℚ) : ℚ :=
  if previous = 0 then (if latest = 0 then 0 else 100)
  else (latest - previous) / previous * 100

/-- Spec-side direction: STABLE when the absolute percent change is below
one, UP when positive, DOWN when negative. -/
def specTrendDirection (c : ℚ) : TrendDirection :=
  if |c| < 1 then .STABLE else if 0 < c then .UP else .DOWN

/-- Spec-side type weight: 4 for VULNERABILITY, 3 for BUG, 1 otherwise. -/
def specTypeWeight (t : String) : Nat :=
  if t = "VULNERABILITY" then 4 else if t = "BUG" then 3 else 1

/-- Spec-side severity weight: BLOCKER 5, CRITICAL 4, MAJOR 3, MINOR 2,
INFO 1, unknown 0. -/
def specSeverityWeight (s : String) : Nat :=
  if s = "BLOCKER" then 5
  else if s = "CRITICAL" then 4
  else if s = "MAJOR" then 3
  else if s = "MINOR" then 2
  else if s = "INFO" then 1
  else 0

/-- Spec-side membership in the class of `^[A-Za-z0-9_:.-]+$`. -/
def specKeyChar (c : Char) : Prop :=
  ('A' ≤ c ∧ c ≤ 'Z') ∨ ('a' ≤ c ∧ c ≤ 'z') ∨ ('0' ≤ c ∧ c ≤ '9') ∨
    c = '_' ∨ c = ':' ∨ c = '.' ∨ c = '-'

instance : DecidablePred specKeyChar := fun c => by
  unfold specKeyChar
  infer_instance

/-- Spec-side provider classification: lower-case the URL and test
substring membership in the priority order github, gitlab, bitbucket,
then dev.azure.com / visualstudio.com; anything else is `other`. -/
def specProviderOf (scm : String) : String :=
  let lower := scm.data.map Char.toLower
  if includesSub lower "github".data then "github"
  else if includesSub lower "gitlab".data then "gitlab"
  else if includesSub lower "bitbucket".data then "bitbucket"
  else if includesSub lower "dev.azure.com".data || includesSub lower "visualstudio.com".data then
    "azure_devops"
  else "other"


/-! ## Lemmas: decimal digit strings -/

lemma digitChar_isDigit {n : Nat} (h : n < 10) : jsDigit (digitChar n) = true := by
  interval_cases n <;> decide

lemma digitVal_digitChar {n : Nat} (h : n < 10) : digitVal (digitChar n) = n := by
  interval_cases n <;> decide

lemma digitsVal_append_singleton (xs : List Char) (c : Char) :
    digitsVal (xs ++ [c]) = digitsVal xs * 10 + digitVal c := by
  simp [digitsVal, List.foldl_append]

lemma natToDigitsAux_spec :
    ∀ fuel n, n < fuel →
      (∀ c ∈ natToDigitsAux fuel n, jsDigit c = true) ∧
      natToDigitsAux fuel n ≠ [] ∧
      digitsVal (natToDigitsAux fuel n) = n := by
  intro fuel
  induction fuel with
  | zero => intro n h; omega
  | succ f ih =>
    intro n hn
    by_cases h10 : n < 10
    · refine ⟨?_, ?_, ?_⟩ <;> simp [natToDigitsAux, h10]
      · exact digitChar_isDigit h10
      · simp [digitsVal, digitVal_digitChar h10]
    · have hn10 : n / 10 < f := by
        have h1 : n / 10 < n := Nat.div_lt_self (by omega) (by omega)
        omega
      obtain ⟨ihd, ihne, ihval⟩ := ih (n / 10) hn10
      refine ⟨?_, ?_, ?_⟩
      · intro c hc
        simp only [natToDigitsAux, if_neg h10, List.mem_append, List.mem_singleton] at hc
        rcases hc with hc | rfl
        · exact ihd c hc
        · exact digitChar_isDigit (Nat.mod_lt _ (by omega))
      · simp [natToDigitsAux, if_neg h10]
      · simp only [natToDigitsAux, if_neg h10]
        rw [digitsVal_append_singleton, ihval, digitVal_digitChar (Nat.mod_lt _ (by omega))]
        omega

lemma natToDigits_digits (n : Nat) : ∀ c ∈ natToDigits n, jsDigit c = true :=
  (natToDigitsAux_spec (n + 1) n (Nat.lt_succ_self n)).1

lemma natToDigits_ne_nil (n : Nat) : natToDigits n ≠ [] :=
  (natToDigitsAux_spec (n + 1) n (Nat.lt_succ_self n)).2.1

lemma digitsVal_natToDigits (n : Nat) : digitsVal (natToDigits n) = n :=
  (natToDigitsAux_spec (n + 1) n (Nat.lt_succ_self n)).2.2

/-! ## Lemmas: scanning digit runs and whitespace -/

lemma takeWhile_nil_of_head {p : Char → Bool} :
    ∀ ys : List Char, ys.takeWhile p = [] → ys.dropWhile p = ys := by
  intro ys h
  cases ys with
  | nil => rfl
  | cons y t =>
    by_cases hy : p y
    · simp [List.takeWhile_cons, hy] at h
    · simp [List.dropWhile_cons, hy]

lemma takeWhile_append_all {p : Char → Bool} :
    ∀ xs ys : List Char, (∀ c ∈ xs, p c = true) → ys.takeWhile p = [] →
      (xs ++ ys).takeWhile p = xs ∧ (xs ++ ys).dropWhile p = ys := by
  intro xs
  induction xs with
  | nil =>
    intro ys _ hy
    exact ⟨hy, takeWhile_nil_of_head ys hy⟩
  | cons x t ih =>
    intro ys hall hy
    have hx : p x = true := hall x (List.mem_cons_self x t)
    obtain ⟨h1, h2⟩ := ih ys (fun c hc => hall c (List.mem_cons_of_mem x hc)) hy
    constructor
    · simp [List.takeWhile_cons, hx, h1]
    · simp [List.dropWhile_cons, hx, h2]

lemma beq_false_of_digit {c : Char} (h : jsDigit c = true) (d : Char)
    (hd : jsDigit d = false) : (c == d) = false := by
  by_cases hcd : c = d
  · subst hcd; simp [h] at hd
  · simp [hcd]

lemma jsDigit_not_ws {c : Char} (h : jsDigit c = true) : jsWhitespace c = false := by
  simp [jsWhitespace, beq_false_of_digit h ' ' (by decide), beq_false_of_digit h '\t' (by decide),
    beq_false_of_digit h '\n' (by decide), beq_false_of_digit h '\r' (by decide),
    beq_false_of_digit h '\x0b' (by decide), beq_false_of_digit h '\x0c' (by decide)]

lemma dropWhile_ws_digit_head {D rest : List Char}
    (hD : ∀ c ∈ D, jsDigit c = true) (hne : D ≠ []) :
    (D ++ rest).dropWhile jsWhitespace = D ++ rest := by
  cases D with
  | nil => exact absurd rfl hne
  | cons d t =>
    have : jsWhitespace d = false := jsDigit_not_ws (hD d (List.mem_cons_self d t))
    simp [List.dropWhile_cons, this]

lemma debtGroup_append {lit D rest : List Char}
    (hD : ∀ c ∈ D, jsDigit c = true) (hne : D ≠ []) (hrest : rest.takeWhile jsDigit = []) :
    debtGroup lit (D ++ rest) =
      if lit.isPrefixOf rest then some (digitsVal D, rest.drop lit.length) else none := by
  obtain ⟨h1, h2⟩ := takeWhile_append_all D rest hD hrest
  simp only [debtGroup, h1, h2, List.isEmpty_iff]
  rw [if_neg hne]

lemma takeWhile_digit_cons_nondigit {c : Char} {t : List Char} (h : jsDigit c = false) :
    (c :: t).takeWhile jsDigit = [] := by
  simp [List.takeWhile_cons, h]

/-! ## Lemmas: parsing each shape produced by `formatDuration` -/

lemma parse_shape_min {M : List Char} (hM : ∀ c ∈ M, jsDigit c = true) (hne : M ≠ []) :
    parseTechnicalDebt (M ++ ['m', 'i', 'n']) = digitsVal M := by
  have hmin : (['m', 'i', 'n'] : List Char).takeWhile jsDigit = [] :=
    takeWhile_digit_cons_nondigit (by decide)
  have hgd : debtGroup ['d'] (M ++ ['m', 'i', 'n']) = none := by
    rw [debtGroup_append hM hne hmin]; rfl
  have hgh : debtGroup ['h'] (M ++ ['m', 'i', 'n']) = none := by
    rw [debtGroup_append hM hne hmin]; rfl
  have hgm : debtGroup ['m', 'i', 'n'] (M ++ ['m', 'i', 'n']) = some (digitsVal M, []) := by
    rw [debtGroup_append hM hne hmin]; rfl
  have hdw : (M ++ ['m', 'i', 'n']).dropWhile jsWhitespace = M ++ ['m', 'i', 'n'] :=
    dropWhile_ws_digit_head hM hne
  simp only [parseTechnicalDebt, hgd, hdw, hgh, hgm]
  simp

lemma parse_shape_h {H : List Char} (hH : ∀ c ∈ H, jsDigit c = true) (hne : H ≠ []) :
    parseTechnicalDebt (H ++ ['h']) = digitsVal H * 60 := by
  have hh : (['h'] : List Char).takeWhile jsDigit = [] :=
    takeWhile_digit_cons_nondigit (by decide)
  have hgd : debtGroup ['d'] (H ++ ['h']) = none := by
    rw [debtGroup_append hH hne hh]; rfl
  have hgh : debtGroup ['h'] (H ++ ['h']) = some (digitsVal H, []) := by
    rw [debtGroup_append hH hne hh]; rfl
  have hdw : (H ++ ['h']).dropWhile jsWhitespace = H ++ ['h'] :=
    dropWhile_ws_digit_head hH hne
  have hnil : ([] : List Char).dropWhile jsWhitespace = [] := rfl
  have hgm : debtGroup ['m', 'i', 'n'] ([] : List Char) = none := rfl
  simp only [parseTechnicalDebt, hgd, hdw, hgh, hnil, hgm]
  simp

lemma parse_shape_h_min {H M : List Char}
    (hH : ∀ c ∈ H, jsDigit c = true) (hneH : H ≠ [])
    (hM : ∀ c ∈ M, jsDigit c = true) (hneM : M ≠ []) :
    parseTechnicalDebt (H ++ ['h', ' '] ++ M ++ ['m', 'i', 'n']) =
      digitsVal H * 60 + digitsVal M := by
  have hassoc : H ++ ['h', ' '] ++ M ++ ['m', 'i', 'n'] =
      H ++ ('h' :: ' ' :: (M ++ ['m', 'i', 'n'])) := by simp
  rw [hassoc]
  have hmin : (['m', 'i', 'n'] : List Char).takeWhile jsDigit = [] :=
    takeWhile_digit_cons_nondigit (by decide)
  have hrest : ('h' :: ' ' :: (M ++ ['m', 'i', 'n'])).takeWhile jsDigit = [] :=
    takeWhile_digit_cons_nondigit (by decide)
  have hgd : debtGroup ['d'] (H ++ ('h' :: ' ' :: (M ++ ['m', 'i', 'n']))) = none := by
    rw [debtGroup_append hH hneH hrest]
    simp [List.isPrefixOf]
  have hgh : debtGroup ['h'] (H ++ ('h' :: ' ' :: (M ++ ['m', 'i', 'n']))) =
      some (digitsVal H, ' ' :: (M ++ ['m', 'i', 'n'])) := by
    rw [debtGroup_append hH hneH hrest]
    simp [List.isPrefixOf]
  have hdw1 : (H ++ ('h' :: ' ' :: (M ++ ['m', 'i', 'n']))).dropWhile jsWhitespace =
      H ++ ('h' :: ' ' :: (M ++ ['m', 'i', 'n'])) :=
    dropWhile_ws_digit_head hH hneH
  have hdw2 : (' ' :: (M ++ ['m', 'i', 'n'])).dropWhile jsWhitespace = M ++ ['m', 'i', 'n'] := by
    rw [List.dropWhile_cons]
    simp only [show jsWhitespace ' ' = true by decide, if_pos]
    exact dropWhile_ws_digit_head hM hneM
  have hgm : debtGroup ['m', 'i', 'n'] (M ++ ['m', 'i', 'n']) = some (digitsVal M, []) := by
    rw [debtGroup_append hM hneM hmin]; rfl
  simp only [parseTechnicalDebt, hgd, hdw1, hgh, hdw2, hgm]
  simp

lemma parse_shape_d {D : List Char} (hD : ∀ c ∈ D, jsDigit c = true) (hne : D ≠ []) :
    parseTechnicalDebt (D ++ ['d']) = digitsVal D * 24 * 60 := by
  have hd : (['d'] : List Char).takeWhile jsDigit = [] :=
    takeWhile_digit_cons_nondigit (by decide)
  have hgd : debtGroup ['d'] (D ++ ['d']) = some (digitsVal D, []) := by
    rw [debtGroup_append hD hne hd]; rfl
  have hnil : ([] : List Char).dropWhile jsWhitespace = [] := rfl
  have hgh : debtGroup ['h'] ([] : List Char) = none := rfl
  have hgm : debtGroup ['m', 'i', 'n'] ([] : List Char) = none := rfl
  simp only [parseTechnicalDebt, hgd, hnil, hgh, hgm]
  simp

lemma parse_shape_d_h {D H : List Char}
    (hD : ∀ c ∈ D, jsDigit c = true) (hneD : D ≠ [])
    (hH : ∀ c ∈ H, jsDigit c = true) (hneH : H ≠ []) :
    parseTechnicalDebt (D ++ ['d', ' '] ++ H ++ ['h']) =
      digitsVal D * 24 * 60 + digitsVal H * 60 := by
  have hassoc : D ++ ['d', ' '] ++ H ++ ['h'] = D ++ ('d' :: ' ' :: (H ++ ['h'])) := by simp
  rw [hassoc]
  have hh : (['h'] : List Char).takeWhile jsDigit = [] :=
    takeWhile_digit_cons_nondigit (by decide)
  have hrest : ('d' :: ' ' :: (H ++ ['h'])).takeWhile jsDigit = [] :=
    takeWhile_digit_cons_nondigit (by decide)
  have hgd : debtGroup ['d'] (D ++ ('d' :: ' ' :: (H ++ ['h']))) =
      some (digitsVal D, ' ' :: (H ++ ['h'])) := by
    rw [debtGroup_append hD hneD hrest]
    simp [List.isPrefixOf]
  have hdw1 : (' ' :: (H ++ ['h'])).dropWhile jsWhitespace = H ++ ['h'] := by
    rw [List.dropWhile_cons]
    simp only [show jsWhitespace ' ' = true by decide, if_pos]
    exact dropWhile_ws_digit_head hH hneH
  have hgh : debtGroup ['h'] (H ++ ['h']) = some (digitsVal H, []) := by
    rw [debtGroup_append hH hneH hh]; rfl
  have hnil : ([] : List Char).dropWhile jsWhitespace = [] := rfl
  have hgm : debtGroup ['m', 'i', 'n'] ([] : List Char) = none := rfl
  simp only [parseTechnicalDebt, hgd, hdw1, hgh, hnil, hgm]
  simp

/-- C1, counterexample: at 1441 minutes `formatDuration` renders `"1d"`
(dropping the leftover minute), which parses back to 1440, not 1441. -/
theorem duration_roundtrip_cex :
    ¬ parseTechnicalDebt (formatDuration 1441) = 1441 := by decide

/-- C1 (amended): for every minute count `m`, if `m < 1440` then
`parseTechnicalDebt (formatDuration m) = m`; from one day upwards the
formatter renders only days and whole hours, so parsing returns
`m - m % 60` (the sub-hour remainder is dropped), which equals `m` only
when `m % 60 = 0`. -/
theorem duration_roundtrip_amended (m : Nat) :
    (m < 1440 → parseTechnicalDebt (formatDuration m) = m) ∧
    (1440 ≤ m → parseTechnicalDebt (formatDuration m) = m - m % 60) := by
  constructor
  · intro hm
    by_cases h60 : m < 60
    · unfold formatDuration
      rw [if_pos h60, parse_shape_min (natToDigits_digits m) (natToDigits_ne_nil m),
        digitsVal_natToDigits]
    · have h24 : m / 60 < 24 := by omega
      unfold formatDuration
      rw [if_neg h60]
      dsimp only
      rw [if_pos h24]
      by_cases hr : m % 60 > 0
      · rw [if_pos hr,
          parse_shape_h_min (natToDigits_digits _) (natToDigits_ne_nil _)
            (natToDigits_digits _) (natToDigits_ne_nil _),
          digitsVal_natToDigits, digitsVal_natToDigits]
        omega
      · rw [if_neg hr, parse_shape_h (natToDigits_digits _) (natToDigits_ne_nil _),
          digitsVal_natToDigits]
        omega
  · intro hm
    have h60 : ¬ m < 60 := by omega
    have h24 : ¬ m / 60 < 24 := by omega
    unfold formatDuration
    rw [if_neg h60]
    dsimp only
    rw [if_neg h24]
    by_cases hrh : m / 60 % 24 > 0
    · rw [if_pos hrh,
        parse_shape_d_h (natToDigits_digits _) (natToDigits_ne_nil _)
          (natToDigits_digits _) (natToDigits_ne_nil _),
        digitsVal_natToDigits, digitsVal_natToDigits]
      omega
    · rw [if_neg hrh, parse_shape_d (natToDigits_digits _) (natToDigits_ne_nil _),
        digitsVal_natToDigits]
      omega

/-- C1 witness: the amended theorem applied at 75 (round trip exact) and
at 1441 (parse returns `1441 - 1441 % 60 = 1440`). -/
theorem duration_roundtrip_amended_witness :
    parseTechnicalDebt (formatDuration 75) = 75 ∧
    parseTechnicalDebt (formatDuration 1441) = 1441 - 1441 % 60 :=
  ⟨(duration_roundtrip_amended 75).1 (by decide),
   (duration_roundtrip_amended 1441).2 (by decide)⟩

/-! ## Trend claims -/

lemma getD_append_last_two (init : List ℚ) (p l : ℚ) :
    (init ++ [p, l]).getD (init.length + 1) 0 = l ∧
    (init ++ [p, l]).getD init.length 0 = p := by
  constructor
  · rw [List.getD_eq_getElem?_getD, List.getElem?_append_right (by omega)]
    have e : init.length + 1 - init.length = 1 := by omega
    rw [e]
    rfl
  · rw [List.getD_eq_getElem?_getD, List.getElem?_append_right (by omega)]
    have e : init.length - init.length = 0 := by omega
    rw [e]
    rfl

lemma trendOfHistory_last_two (history : List HistoryEntry) (init : List ℚ)
    (previous latest : ℚ) (h : history.filterMap id = init ++ [previous, latest]) :
    trendOfHistory history =
      ⟨specTrendDirection (specChangePercent previous latest),
       specChangePercent previous latest⟩ := by
  obtain ⟨h1, h0⟩ := getD_append_last_two init previous latest
  unfold trendOfHistory
  rw [h]
  dsimp only
  have hlen : (init ++ [previous, latest]).length = init.length + 2 := by simp
  rw [hlen]
  have hnot : ¬ init.length + 2 < 2 := by omega
  rw [if_neg hnot]
  have e1 : init.length + 2 - 1 = init.length + 1 := by omega
  have e0 : init.length + 2 - 2 = init.length := by omega
  rw [e1, e0, h1, h0]
  rfl

/-- C5: on any series whose defined values end in `previous, latest`, the
computed entry is exactly the spec formula (percent change
`(latest - previous) / previous * 100` with the zero-previous convention,
direction STABLE below one percent in magnitude, else by sign), and the
three concrete examples of the spec hold. -/
theorem trend_last_two_formula :
    (∀ (history : List HistoryEntry) (init : List ℚ) (previous latest : ℚ),
      history.filterMap id = init ++ [previous, latest] →
      trendOfHistory history =
        ⟨specTrendDirection (specChangePercent previous latest),
         specChangePercent previous latest⟩) ∧
    trendOfHistory [some 10, some 20] = ⟨.UP, 100⟩ ∧
    (trendOfHistory [some 0, some 0]).changePercent = 0 ∧
    (trendOfHistory [some 0, some 5]).changePercent = 100 := by
  refine ⟨trendOfHistory_last_two, ?_, ?_, ?_⟩
  · rw [trendOfHistory_last_two [some 10, some 20] [] 10 20 (by simp)]
    norm_num [specChangePercent, specTrendDirection]
  · rw [trendOfHistory_last_two [some 0, some 0] [] 0 0 (by simp)]
    norm_num [specChangePercent]
  · rw [trendOfHistory_last_two [some 0, some 5] [] 0 5 (by simp)]
    norm_num [specChangePercent]

/-- C5 witness: the formula applied to the two-point series `[10, 20]`. -/
theorem trend_last_two_formula_witness :
    trendOfHistory [some 10, some 20] =
      ⟨specTrendDirection (specChangePercent 10 20), specChangePercent 10 20⟩ :=
  trend_last_two_formula.1 [some 10, some 20] [] 10 20 (by simp)

/-- C6: a metric whose series has fewer than two defined values gets the
defined entry STABLE / 0 in the computed trend analysis, not an error. -/
theorem trend_short_series_stable (metricTrends : List MetricTrend) (t : MetricTrend)
    (hmem : t ∈ metricTrends) (hlen : (t.history.filterMap id).length < 2) :
    (t.metric, (⟨.STABLE, 0⟩ : TrendEntry)) ∈ calculateTrends metricTrends := by
  have hval : trendOfHistory t.history = ⟨.STABLE, 0⟩ := by
    unfold trendOfHistory
    rw [if_pos hlen]
  exact List.mem_map.mpr ⟨t, hmem, by rw [hval]⟩

/-- C6 witness: a one-point series (after dropping an undefined entry)
yields STABLE / 0. -/
theorem trend_short_series_stable_witness :
    ("coverage", (⟨.STABLE, 0⟩ : TrendEntry)) ∈
      calculateTrends [⟨"coverage", [none, some 3]⟩] :=
  trend_short_series_stable [⟨"coverage", [none, some 3]⟩] ⟨"coverage", [none, some 3]⟩
    (by simp) (by simp)

/-! ## Issue-priority claims -/

lemma typeWeight_eq_spec (t : String) :
    (if t = "BUG" then 3 else if t = "VULNERABILITY" then 4 else 1) = specTypeWeight t := by
  unfold specTypeWeight
  by_cases h1 : t = "BUG"
  · subst h1
    simp
  · by_cases h2 : t = "VULNERABILITY" <;> simp [h1, h2]

/-- The comparator is transitive. -/
lemma priority_le_trans (a b c : SortableIssue)
    (hab : decide (issuePriority b ≤ issuePriority a) = true)
    (hbc : decide (issuePriority c ≤ issuePriority b) = true) :
    decide (issuePriority c ≤ issuePriority a) = true := by
  simp only [decide_eq_true_eq] at *
  omega

/-- The comparator is total. -/
lemma priority_le_total (a b : SortableIssue) :
    (decide (issuePriority b ≤ issuePriority a) ||
      decide (issuePriority a ≤ issuePriority b)) = true := by
  simp only [Bool.or_eq_true, decide_eq_true_eq]
  omega

/-- C7: the priority is the product of the spec type weight and the spec
severity weight for every type and every severity of the five-value
enumeration; sorting yields non-increasing priorities; and ties keep
their original relative order (the sorted list restricted to any one
priority value equals the input restricted to it). -/
theorem issue_priority_and_sort :
    (∀ (type severity : String),
      severity ∈ ["BLOCKER", "CRITICAL", "MAJOR", "MINOR", "INFO"] →
      getIssuePriority type severity = specTypeWeight type * specSeverityWeight severity) ∧
    (∀ issues : List SortableIssue,
      (sortIssuesByPriority issues).Pairwise
        (fun a b => issuePriority b ≤ issuePriority a)) ∧
    (∀ (issues : List SortableIssue) (n : Nat),
      (sortIssuesByPriority issues).filter (fun i => issuePriority i == n) =
        issues.filter (fun i => issuePriority i == n)) := by
  refine ⟨?_, ?_, ?_⟩
  · intro type severity hs
    unfold getIssuePriority
    rw [typeWeight_eq_spec]
    fin_cases hs <;> rfl
  · intro issues
    unfold sortIssuesByPriority
    have h := List.sorted_mergeSort priority_le_trans priority_le_total issues
    exact h.imp (fun hab => by simpa using hab)
  · intro issues n
    set f : SortableIssue → Bool := fun i => issuePriority i == n with hf
    have hmemf : ∀ a ∈ issues.filter f, issuePriority a = n := by
      intro a ha
      have := (List.mem_filter.mp ha).2
      simpa [hf] using this
    have hpair : (issues.filter f).Pairwise
        (fun a b => decide (issuePriority b ≤ issuePriority a) = true) := by
      rw [List.pairwise_iff_forall_sublist]
      intro a b hsub
      have ha : a ∈ issues.filter f := hsub.mem (by simp)
      have hb : b ∈ issues.filter f := hsub.mem (by simp)
      simp [hmemf a ha, hmemf b hb]
    have hsub : (issues.filter f).Sublist (issues.mergeSort
        (fun a b => decide (issuePriority b ≤ issuePriority a))) :=
      List.sublist_mergeSort priority_le_trans priority_le_total hpair
        (List.filter_sublist issues)
    have hsub2 := hsub.filter f
    rw [List.filter_filter] at hsub2
    have hff : issues.filter (fun a => f a && f a) = issues.filter f := by
      simp
    rw [hff] at hsub2
    have hperm : ((issues.mergeSort
        (fun a b => decide (issuePriority b ≤ issuePriority a))).filter f).Perm
        (issues.filter f) :=
      (List.mergeSort_perm issues _).filter f
    unfold sortIssuesByPriority
    exact (hsub2.eq_of_length hperm.length_eq.symm).symm

/-- C7 witness: the product formula applied at a vulnerability of blocker
severity (priority 20). -/
theorem issue_priority_and_sort_witness :
    getIssuePriority "VULNERABILITY" "BLOCKER" =
      specTypeWeight "VULNERABILITY" * specSeverityWeight "BLOCKER" :=
  issue_priority_and_sort.1 "VULNERABILITY" "BLOCKER" (by simp)

/-- C10: `sortIssuesByPriority` returns a permutation of its input (the
input itself is untouched: the source sorts a spread copy, and the
embedding is pure). -/
theorem sort_issues_is_permutation (issues : List SortableIssue) :
    (sortIssuesByPriority issues).Perm issues := by
  unfold sortIssuesByPriority
  exact List.mergeSort_perm issues _

/-! ## Project-key claim -/

lemma projectKeyChar_iff (c : Char) : projectKeyChar c = true ↔ specKeyChar c := by
  unfold projectKeyChar specKeyChar
  simp only [Bool.or_eq_true, Bool.and_eq_true, decide_eq_true_eq, beq_iff_eq]
  tauto

/-- C8: `isValidProjectKey` accepts exactly the strings of length 1 to 400
all of whose characters lie in the class `[A-Za-z0-9_:.-]`; the spec's
three concrete examples hold. -/
theorem project_key_validity :
    (∀ key : String,
      isValidProjectKey key = true ↔
        ((∀ c ∈ key.data, specKeyChar c) ∧ 1 ≤ key.length ∧ key.length ≤ 400)) ∧
    isValidProjectKey "my_project-1.0:beta" = true ∧
    isValidProjectKey "my project" = false ∧
    isValidProjectKey (String.mk (List.replicate 401 'a')) = false := by
  refine ⟨?_, by decide, by decide, ?_⟩
  · intro key
    constructor
    · intro h
      unfold isValidProjectKey projectKeyRegexTest at h
      rw [Bool.and_eq_true, Bool.and_eq_true, Bool.and_eq_true] at h
      obtain ⟨⟨⟨hne, hall⟩, hpos⟩, hle⟩ := h
      refine ⟨fun c hc => (projectKeyChar_iff c).1 ((List.all_eq_true.mp hall) c hc),
        by simpa using hpos, by simpa using hle⟩
    · rintro ⟨hall, h1, h400⟩
      unfold isValidProjectKey projectKeyRegexTest
      rw [Bool.and_eq_true, Bool.and_eq_true, Bool.and_eq_true]
      have hne : key.data ≠ [] := by
        intro hnil
        have : key.length = 0 := by
          show key.data.length = 0
          rw [hnil]
          rfl
        omega
      refine ⟨⟨⟨?_, ?_⟩, ?_⟩, ?_⟩
      · simp [hne]
      · exact List.all_eq_true.mpr (fun c hc => (projectKeyChar_iff c).2 (hall c hc))
      · simpa using h1
      · simpa using h400
  · have h401 : String.length (String.mk (List.replicate 401 'a')) = 401 := by
      show (List.replicate 401 'a').length = 401
      exact List.length_replicate 401 'a'
    have h400 : decide (String.length (String.mk (List.replicate 401 'a')) ≤ 400) = false := by
      rw [h401]
      rfl
    unfold isValidProjectKey
    rw [h400, Bool.and_false]

/-- C8 witness: the characterization applied at the single-character key
`"x"`. -/
theorem project_key_validity_witness : isValidProjectKey "x" = true :=
  (project_key_validity.1 "x").2 ⟨by decide, by decide, by decide⟩

/-! ## Security-vulnerability operation claims -/

/-- C2, counterexample: with a succeeding issue search and a failing
hotspot search, `getSecurityVulnerabilities` propagates the hotspot
failure instead of succeeding without hotspot data (both awaits sit in
the same rethrowing `try`/`catch`). -/
theorem security_hotspot_failure_cex :
    getSecurityVulnerabilities (ε := String) (α := String) (β := String)
      (Except.ok ⟨some ["vuln-1"]⟩) (Except.error "hotspot search failed") =
      Except.error "hotspot search failed" := rfl

/-- C2 (amended): both sub-searches are required.  A failure of the issue
search propagates; a failure of the hotspot search equally propagates even
when the issue search succeeded; only when both succeed does the operation
return the merged record (absent payload arrays defaulting to `[]`). -/
theorem security_vulnerabilities_both_required {ε α β : Type}
    (vulnFetch : Except ε (IssuesSearchData α))
    (hotspotsFetch : Except ε (HotspotsSearchData β)) :
    (∀ e, vulnFetch = .error e →
      getSecurityVulnerabilities vulnFetch hotspotsFetch = .error e) ∧
    (∀ v e, vulnFetch = .ok v → hotspotsFetch = .error e →
      getSecurityVulnerabilities vulnFetch hotspotsFetch = .error e) ∧
    (∀ v h, vulnFetch = .ok v → hotspotsFetch = .ok h →
      getSecurityVulnerabilities vulnFetch hotspotsFetch =
        .ok ⟨v.issues.getD [], h.hotspots.getD []⟩) := by
  refine ⟨?_, ?_, ?_⟩
  · intro e he
    rw [he]
    rfl
  · intro v e hv he
    rw [hv, he]
    rfl
  · intro v h hv hh
    rw [hv, hh]
    rfl

/-- C2 witness: the amended behaviour at concrete fetch outcomes (issue
search succeeded, hotspot search failed, operation fails). -/
theorem security_vulnerabilities_both_required_witness :
    getSecurityVulnerabilities (ε := String) (α := String) (β := String)
      (Except.ok ⟨some ["v1"]⟩) (Except.error "503") = Except.error "503" :=
  (security_vulnerabilities_both_required
      (Except.ok ⟨some ["v1"]⟩) (Except.error "503")).2.1 ⟨some ["v1"]⟩ "503" rfl rfl

/-! ## Repository-info partial-failure claim -/

/-- C3: when the links fetch and the ALM fetch both throw but the base
project search succeeds, `getProjectRepository` still succeeds, with
`links` and `alm` absent, and `repository` absent as long as branches are
not requested or unavailable (it is only created from branch data or from
an scm link); a failure of the base project search propagates as the
operation's failure. -/
theorem repository_partial_failure {ε : Type} (params : GetProjectRepositoryParams)
    (pd : ProjectSearchData) (e1 e2 : ε) (branchesFetch : Except ε BranchesData)
    (hb : params.includeBranches = false ∨
      ∀ bd, branchesFetch = .ok bd → (bd.branches = none ∨ bd.branches = some [])) :
    (∃ r, getProjectRepository params (.ok pd) (.error e1) branchesFetch (.error e2) =
        .ok r ∧ r.links = none ∧ r.alm = none ∧ r.repository = none) ∧
    (∀ (e : ε) (lf : Except ε LinksData) (bf : Except ε BranchesData)
        (af : Except ε AlmData),
      getProjectRepository params (.error e) lf bf af = .error e) := by
  constructor
  · obtain ⟨pk, ib⟩ := params
    cases ib with
    | false => exact ⟨_, rfl, rfl, rfl, rfl⟩
    | true =>
      rcases hb with hb | hb
      · simp at hb
      · cases branchesFetch with
        | error e => exact ⟨_, rfl, rfl, rfl, rfl⟩
        | ok bd =>
          obtain ⟨obr⟩ := bd
          rcases hb ⟨obr⟩ rfl with h | h <;> dsimp only at h <;> subst h <;>
            exact ⟨_, rfl, rfl, rfl, rfl⟩
  · intro e lf bf af
    rfl

/-- C3 witness: concrete fetch outcomes (project search ok, links and ALM
failing, branches failing and unrequested) produce a success with all
three sub-blocks absent. -/
theorem repository_partial_failure_witness :
    ∃ r, getProjectRepository (ε := String) ⟨"proj", false⟩ (.ok ⟨none⟩)
        (.error "links down") (.error "branches down") (.error "alm down") =
        .ok r ∧ r.links = none ∧ r.alm = none ∧ r.repository = none :=
  (repository_partial_failure ⟨"proj", false⟩ ⟨none⟩ "links down" "alm down"
    (.error "branches down") (Or.inl rfl)).1

/-! ## SCM provider-derivation claims -/

/-- C4: the provider stored by the SCM parsing block is exactly the
spec-side priority classification, for every URL (whether or not the
organization/name pattern matches the provider is kept); on the spec's
github example organization and name are extracted with the `.git` suffix
trimmed, and on its Azure DevOps example they are left absent. -/
theorem scm_provider_derivation :
    (∀ (scm : String) (repo0 : RepositoryBlock),
      (parseScmRepository scm repo0).provider = some (specProviderOf scm)) ∧
    (parseScmRepository "https://github.com/acme/widget.git" emptyRepositoryBlock).provider =
        some "github" ∧
    (parseScmRepository "https://github.com/acme/widget.git" emptyRepositoryBlock).organization =
        some "acme" ∧
    (parseScmRepository "https://github.com/acme/widget.git" emptyRepositoryBlock).name =
        some "widget" ∧
    (parseScmRepository "https://dev.azure.com/acme/widget/_git/widget"
        emptyRepositoryBlock).provider = some "azure_devops" ∧
    (parseScmRepository "https://dev.azure.com/acme/widget/_git/widget"
        emptyRepositoryBlock).organization = none ∧
    (parseScmRepository "https://dev.azure.com/acme/widget/_git/widget"
        emptyRepositoryBlock).name = none := by
  refine ⟨?_, rfl, rfl, rfl, rfl, rfl, rfl⟩
  intro scm repo0
  unfold parseScmRepository specProviderOf
  dsimp only
  by_cases h1 : includesSub (scm.data.map Char.toLower) "github".data = true
  · simp only [h1, if_true]
    cases scmFindMatch "github".data scm.data <;> rfl
  · rw [Bool.not_eq_true] at h1
    simp only [h1, Bool.false_eq_true, if_false]
    by_cases h2 : includesSub (scm.data.map Char.toLower) "gitlab".data = true
    · simp only [h2, if_true]
      cases scmFindMatch "gitlab".data scm.data <;> rfl
    · rw [Bool.not_eq_true] at h2
      simp only [h2, Bool.false_eq_true, if_false]
      by_cases h3 : includesSub (scm.data.map Char.toLower) "bitbucket".data = true
      · simp only [h3, if_true]
        cases scmFindMatch "bitbucket".data scm.data <;> rfl
      · rw [Bool.not_eq_true] at h3
        simp only [h3, Bool.false_eq_true, if_false]
        by_cases h4 : (includesSub (scm.data.map Char.toLower) "dev.azure.com".data ||
            includesSub (scm.data.map Char.toLower) "visualstudio.com".data) = true
        · simp only [h4, if_true]
        · rw [Bool.not_eq_true] at h4
          simp only [h4, Bool.false_eq_true, if_false]

/-- C9 helper: if the literal fragment does not occur case-sensitively in
the scanned string, the extraction regex cannot match. -/
lemma scmFindMatch_none_of_not_included (frag : List Char) :
    ∀ hay, includesSub hay frag = false → scmFindMatch frag hay = none := by
  intro hay
  induction hay with
  | nil => intro _; rfl
  | cons c t ih =>
    intro h
    unfold includesSub at h
    rw [Bool.or_eq_false_iff] at h
    obtain ⟨hp, hrest⟩ := h
    unfold scmFindMatch
    simp only [hp, Bool.false_eq_true, if_false]
    exact ih hrest

/-- C9: the provider test runs on the lower-cased URL but the extraction
regex runs case-sensitively on the original URL, so any URL whose host
fragment occurs only in mixed case is classified (provider set) while
organization and name stay as they were (absent when starting from an
empty repository block); the same URL written in lower case yields both. -/
theorem scm_provider_case_mismatch :
    (∀ (scm : String) (repo0 : RepositoryBlock),
      includesSub (scm.data.map Char.toLower) "github".data = true →
      includesSub scm.data "github".data = false →
      (parseScmRepository scm repo0).provider = some "github" ∧
      (parseScmRepository scm repo0).organization = repo0.organization ∧
      (parseScmRepository scm repo0).name = repo0.name) ∧
    (parseScmRepository "https://GitHub.com/Acme/Widget" emptyRepositoryBlock).provider =
        some "github" ∧
    (parseScmRepository "https://GitHub.com/Acme/Widget" emptyRepositoryBlock).organization =
        none ∧
    (parseScmRepository "https://GitHub.com/Acme/Widget" emptyRepositoryBlock).name = none ∧
    (parseScmRepository "https://github.com/acme/widget" emptyRepositoryBlock).organization =
        some "acme" ∧
    (parseScmRepository "https://github.com/acme/widget" emptyRepositoryBlock).name =
        some "widget" := by
  refine ⟨?_, rfl, rfl, rfl, rfl, rfl⟩
  intro scm repo0 hlow horig
  have hn := scmFindMatch_none_of_not_included "github".data scm.data horig
  refine ⟨?_, ?_, ?_⟩ <;>
    simp [parseScmRepository, hlow, hn]

/-- C9 witness: the general mixed-case statement applied at the example
URL, whose lower-cased form contains `github` while the original does
not. -/
theorem scm_provider_case_mismatch_witness :
    (parseScmRepository "https://GitHub.com/Acme/Widget" emptyRepositoryBlock).provider =
        some "github" ∧
    (parseScmRepository "https://GitHub.com/Acme/Widget" emptyRepositoryBlock).organization =
        emptyRepositoryBlock.organization ∧
    (parseScmRepository "https://GitHub.com/Acme/Widget" emptyRepositoryBlock).name =
        emptyRepositoryBlock.name :=
  scm_provider_case_mismatch.1 "https://GitHub.com/Acme/Widget" emptyRepositoryBlock
    (by decide) (by decide)
